import Mathlib

/-!
Shallow embedding of `src/sync.py`, a Google Drive one-folder sync and
backup script.  The effectful Python functions are modelled as pure
functions that return the ordered list of external calls they issue
(`Call` below).  Timestamps are modelled as `Int` seconds; the model
filesystem holds only regular files, so `os.path.exists` and
`os.path.isfile` coincide on it.  Failure of an external call
(`raise` in the Python code) is modelled by an oracle `fails : Call → Bool`
consumed by `runCalls`, which executes a trace up to the first failing
call, mirroring Python exception propagation.
-/

/-- External effects issued by the script, in program order.
`warn` is a `logging.warning` line (never raises); every other call can
raise in the source. -/
inductive Call
  | listFiles (folderId : String)
  | loadConfig
  | create (name : String) (folderId : String)
  | update (fileId : String)
  | download (fileId : String) (localPath : String)
  | warn (fileName : String)
  | zipCreate (path : String)
  | zipWrite (path : String)
  | removeLocal (path : String)
deriving DecidableEq, Repr

def Call.isLoadConfig : Call → Bool
  | Call.loadConfig => true
  | _ => false

def Call.isDownload : Call → Bool
  | Call.download _ _ => true
  | _ => false

def Call.isWarn : Call → Bool
  | Call.warn _ => true
  | _ => false

/-- A transfer call moves file content between local disk and Drive:
`files().create`, `files().update`, or `files().get_media` download. -/
def Call.isTransfer : Call → Bool
  | Call.create _ _ => true
  | Call.update _ => true
  | Call.download _ _ => true
  | _ => false

def Call.isZipCreate : Call → Bool
  | Call.zipCreate _ => true
  | _ => false

/-- A record returned by `list_files_in_drive`: fields `id`, `name`,
`modifiedTime` (here already parsed to a timestamp). -/
structure DriveFile where
  id : String
  name : String
  modifiedTime : Int
deriving DecidableEq, Repr

/-- The configuration file contents: `folder_id` and `file_mappings`
(logical name to local path, insertion order kept). -/
structure Config where
  folder_id : String
  file_mappings : List (String × String)
deriving DecidableEq, Repr

/-- The local filesystem: regular files with their mtime. -/
structure Fs where
  files : List (String × Int)
deriving DecidableEq, Repr

def Fs.isfile (fs : Fs) (p : String) : Bool :=
  (fs.files.lookup p).isSome

/-- `os.path.getmtime`; total in the model (0 when absent — the source
only calls it on paths it has checked or just created). -/
def Fs.mtime (fs : Fs) (p : String) : Int :=
  (fs.files.lookup p).getD 0

def Fs.insert (fs : Fs) (p : String) (t : Int) : Fs :=
  ⟨(p, t) :: fs.files⟩

/-- `os.path.basename`: the characters after the last slash. -/
def basename (p : String) : String :=
  ⟨p.data.foldl (fun acc c => if c = '/' then [] else acc ++ [c]) []⟩

/-- `upload_file(file_path, drive_files, folder_id)` (sync.py lines 54-77):
match a Drive record by basename; update when local is strictly newer,
create when absent, otherwise do nothing. -/
def upload_file (fs : Fs) (file_path : String) (drive_files : List DriveFile)
    (folder_id : String) : List Call :=
  let file_name := basename file_path
  let local_modified_time := fs.mtime file_path
  match drive_files.find? (fun f => f.name == file_name) with
  | some drive_file =>
      if local_modified_time ≤ drive_file.modifiedTime then []
      else [Call.update drive_file.id]
  | none => [Call.create file_name folder_id]

/-- `download_file(file_name, drive_file)` (sync.py lines 80-107):
re-loads the config, warns and returns when the name is unmapped (the
source tests Python truthiness, so an empty mapped path also warns),
downloads when the local file is absent or strictly older. -/
def download_file (cfg : Config) (fs : Fs) (file_name : String)
    (drive_file : DriveFile) : List Call :=
  Call.loadConfig ::
    match cfg.file_mappings.lookup file_name with
    | none => [Call.warn file_name]
    | some local_file_path =>
        if local_file_path = "" then [Call.warn file_name]
        else if fs.isfile local_file_path then
          if drive_file.modifiedTime ≤ fs.mtime local_file_path then []
          else [Call.download drive_file.id local_file_path]
        else [Call.download drive_file.id local_file_path]

/-- The upload loop of `sync` (lines 159-161): every mapped path that is a
regular file, in mapping order. -/
def uploadPhase (cfg : Config) (fs : Fs) (drive_files : List DriveFile) :
    List Call :=
  ((cfg.file_mappings.map Prod.snd).filter fs.isfile).flatMap
    (fun p => upload_file fs p drive_files cfg.folder_id)

/-- The download loop of `sync` (lines 163-164): every Drive record. -/
def downloadPhase (cfg : Config) (fs : Fs) (drive_files : List DriveFile) :
    List Call :=
  drive_files.flatMap (fun df => download_file cfg fs df.name df)

/-- `sync()` (lines 153-169): load config, list the Drive folder, upload
pass, then download pass. -/
def sync (cfg : Config) (fs : Fs) (drive_files : List DriveFile) : List Call :=
  Call.loadConfig :: Call.listFiles cfg.folder_id ::
    (uploadPhase cfg fs drive_files ++ downloadPhase cfg fs drive_files)

def BACKUP_FOLDER_ID : String := "1WYgGglbHxds7Ajy2Omdpk8WvyN1u69xY"

def BACKUP_INTERVAL_DAYS : Int := 10

/-- `timedelta(days=BACKUP_INTERVAL_DAYS)` in seconds. -/
def backup_interval : Int := BACKUP_INTERVAL_DAYS * 86400

/-- The `backup_YYYYMMDD_HHMMSS.zip` name, keyed by the current time. -/
def backup_file_name (now : Int) : String :=
  "backup_" ++ toString now ++ ".zip"

def local_backup_path (now : Int) : String :=
  "/tmp/" ++ backup_file_name now

/-- One step of the most-recent-backup scan (sync.py lines 117-120):
replace the candidate when the next record is strictly newer. -/
def recent_step (recent : Option DriveFile) (file : DriveFile) :
    Option DriveFile :=
  match recent with
  | none => some file
  | some r =>
      if file.modifiedTime > r.modifiedTime then some file else some r

/-- The most-recent-backup scan of `create_backup` (lines 116-120): keep
the first record with the maximal `modifiedTime`. -/
def find_recent (files : List DriveFile) : Option DriveFile :=
  files.foldl recent_step none

/-- The body after the skip check of `create_backup` (lines 128-147):
load config, build the zip from existing mapped files, upload it into the
backup folder, delete the local archive. -/
def backup_payload (now : Int) (cfg : Config) (fs : Fs)
    (blist : List DriveFile) : List Call :=
  let path := local_backup_path now
  Call.loadConfig :: Call.zipCreate path ::
    (((cfg.file_mappings.map Prod.snd).filter fs.isfile).map Call.zipWrite
      ++ upload_file (fs.insert path now) path blist BACKUP_FOLDER_ID
      ++ [Call.removeLocal path])

/-- `create_backup()` (lines 110-150): list the backup folder, skip when
the newest backup is within the interval, otherwise produce and upload a
new archive. -/
def create_backup (now : Int) (cfg : Config) (fs : Fs)
    (blist : List DriveFile) : List Call :=
  Call.listFiles BACKUP_FOLDER_ID ::
    match find_recent blist with
    | some r =>
        if now - r.modifiedTime < backup_interval then []
        else backup_payload now cfg fs blist
    | none => backup_payload now cfg fs blist

/-- Whether a trace builds a local archive. -/
def producesArchive (t : List Call) : Bool :=
  t.any Call.isZipCreate

/-- Calls that can raise in the source; logging cannot. -/
def fallible : Call → Bool
  | Call.warn _ => false
  | _ => true

/-- Execute a trace against a failure oracle: stop at the first failing
call (exception propagation); the payload is the executed prefix, the
failing call included. -/
def runCalls (fails : Call → Bool) : List Call → Except (List Call) (List Call)
  | [] => Except.ok []
  | c :: cs =>
      if fallible c && fails c then Except.error [c]
      else
        match runCalls fails cs with
        | Except.ok t => Except.ok (c :: t)
        | Except.error t => Except.error (c :: t)

/-- Prefix an execution result with already-executed calls. -/
def prependCalls (pre : List Call) :
    Except (List Call) (List Call) → Except (List Call) (List Call)
  | Except.ok t => Except.ok (pre ++ t)
  | Except.error t => Except.error (pre ++ t)

/-- `last_backup_time = datetime.now() - timedelta(days=BACKUP_INTERVAL_DAYS)`
(line 173). -/
def init_last_backup (now0 : Int) : Int := now0 - backup_interval

/-- Outcome of one `while True` iteration (lines 175-185):
whether `create_backup` was invoked, whether the iteration reached the
final sleep (Idle), and the value of `last_backup_time` afterwards
(unchanged when the iteration crashed). -/
structure IterResult where
  backup_invoked : Bool
  slept : Bool
  last_backup_after : Int
deriving DecidableEq, Repr

/-- One iteration of the main loop: run `sync`; on success, when the
wall-clock timer has expired, run `create_backup` and refresh
`last_backup_time`; reach the sleep only when nothing raised.
`now1` is the clock at the timer check, `now2` inside `create_backup`,
`now3` at the `last_backup_time` refresh. -/
def loop_body (cfg : Config) (fs : Fs) (drive_files blist : List DriveFile)
    (fails : Call → Bool) (last_backup_time now1 now2 now3 : Int) :
    IterResult :=
  match runCalls fails (sync cfg fs drive_files) with
  | Except.error _ => ⟨false, false, last_backup_time⟩
  | Except.ok _ =>
      if now1 - last_backup_time ≥ backup_interval then
        match runCalls fails (create_backup now2 cfg fs blist) with
        | Except.error _ => ⟨true, false, last_backup_time⟩
        | Except.ok _ => ⟨true, true, now3⟩
      else ⟨false, true, last_backup_time⟩

/-- Concrete instances used by closed counterexamples and witnesses. -/
def cfg0 : Config := ⟨"folder0", [("a.txt", "/local/a.txt")]⟩

def fs0 : Fs := ⟨[]⟩

def df0 : DriveFile := ⟨"id0", "a.txt", 3⟩

/-- A Drive record whose name is absent from `cfg0`'s mapping. -/
def dfB : DriveFile := ⟨"idB", "b.txt", 7⟩

/-- A mapping where the logical name `a` differs from the basename of its
path, and that basename is itself another mapping key. -/
def cfg1 : Config := ⟨"folder0", [("a", "/x/b.txt"), ("b.txt", "/y/c.txt")]⟩

/-- The remote record produced by uploading `/x/b.txt` under `cfg1`. -/
def df1 : DriveFile := ⟨"id1", "b.txt", 5⟩

/-- C1: for a mapped regular file, `upload_file` creates when no Drive
record matches the basename, updates exactly once (reusing the record's
id) when the local mtime is strictly newer, does nothing otherwise, and
never issues a download. -/
theorem upload_file_policy (fs : Fs) (p fid : String) (dfs : List DriveFile)
    (hf : fs.isfile p = true) :
    (dfs.find? (fun f => f.name == basename p) = none →
        upload_file fs p dfs fid = [Call.create (basename p) fid])
    ∧ (∀ df, dfs.find? (fun f => f.name == basename p) = some df →
        (df.modifiedTime < fs.mtime p →
            upload_file fs p dfs fid = [Call.update df.id])
        ∧ (fs.mtime p ≤ df.modifiedTime → upload_file fs p dfs fid = []))
    ∧ (upload_file fs p dfs fid).countP Call.isDownload = 0 := by
  refine ⟨fun hnone => ?_, fun df hdf => ⟨fun hlt => ?_, fun hle => ?_⟩, ?_⟩
  · simp [upload_file, hnone]
  · simp [upload_file, hdf, not_le.mpr hlt]
  · simp [upload_file, hdf, hle]
  · unfold upload_file
    cases hfind : dfs.find? (fun f => f.name == basename p) with
    | none => simp [hfind, Call.isDownload]
    | some df =>
        by_cases hle : fs.mtime p ≤ df.modifiedTime <;>
          simp [hfind, hle, Call.isDownload]

/-- Closed instance of C1: an unmatched file yields exactly one create
call. -/
theorem upload_file_policy_witness :
    upload_file ⟨[("/local/a.txt", 5)]⟩ "/local/a.txt" [] "folder0" =
      [Call.create "a.txt" "folder0"] :=
  (upload_file_policy ⟨[("/local/a.txt", 5)]⟩ "/local/a.txt" "folder0" []
    (by decide)).1 (by decide)

/-- C2: for a Drive record whose name is mapped (to a non-empty path),
`download_file` issues exactly one download, overwriting the mapped local
path, precisely when the local file is absent or strictly older; otherwise
it issues no download. -/
theorem download_file_policy (cfg : Config) (fs : Fs) (nm p : String)
    (df : DriveFile) (hm : cfg.file_mappings.lookup nm = some p)
    (hp : p ≠ "") :
    ((fs.isfile p = false ∨ fs.mtime p < df.modifiedTime) →
        download_file cfg fs nm df =
          [Call.loadConfig, Call.download df.id p])
    ∧ (fs.isfile p = true → df.modifiedTime ≤ fs.mtime p →
        download_file cfg fs nm df = [Call.loadConfig]) := by
  constructor
  · rintro (habs | hlt)
    · simp [download_file, hm, hp, habs]
    · unfold download_file
      rw [hm]
      simp only [hp, if_false]
      by_cases he : fs.isfile p <;> simp [he, not_le.mpr hlt]
  · intro he hle
    simp [download_file, hm, hp, he, hle]

/-- Closed instance of C2: a locally absent mapped record is downloaded. -/
theorem download_file_policy_witness :
    download_file cfg0 fs0 "a.txt" df0 =
      [Call.loadConfig, Call.download "id0" "/local/a.txt"] :=
  (download_file_policy cfg0 fs0 "a.txt" "/local/a.txt" df0
    (by decide) (by decide)).1 (Or.inl (by decide))

/-- C4: when a mapped file exists on both sides with equal timestamps,
the upload pass issues no call for it and the download pass issues no
transfer call for it. -/
theorem equal_timestamps_no_transfer (cfg : Config) (fs : Fs)
    (dfs : List DriveFile) (df : DriveFile) (nm p : String) (t : Int)
    (hb : basename p = nm) (hm : cfg.file_mappings.lookup nm = some p)
    (hp : p ≠ "") (hf : fs.files.lookup p = some t)
    (hfind : dfs.find? (fun f => f.name == basename p) = some df)
    (ht : df.modifiedTime = t) :
    upload_file fs p dfs cfg.folder_id = []
    ∧ download_file cfg fs nm df = [Call.loadConfig]
    ∧ (download_file cfg fs nm df).countP Call.isTransfer = 0 := by
  have hmt : fs.mtime p = t := by simp [Fs.mtime, hf]
  have hisf : fs.isfile p = true := by simp [Fs.isfile, hf]
  refine ⟨?_, ?_, ?_⟩
  · simp [upload_file, hfind, hmt, ht]
  · simp [download_file, hm, hp, hisf, hmt, ht]
  · simp [download_file, hm, hp, hisf, hmt, ht, Call.isTransfer]

/-- Closed instance of C4: equal timestamps produce no transfer either
way. -/
theorem equal_timestamps_no_transfer_witness :
    upload_file ⟨[("/local/a.txt", 3)]⟩ "/local/a.txt" [df0] cfg0.folder_id = []
    ∧ download_file cfg0 ⟨[("/local/a.txt", 3)]⟩ "a.txt" df0 =
        [Call.loadConfig] :=
  ⟨(equal_timestamps_no_transfer cfg0 ⟨[("/local/a.txt", 3)]⟩ [df0] df0
      "a.txt" "/local/a.txt" 3 (by decide) (by decide) (by decide)
      (by decide) (by decide) (by decide)).1,
   (equal_timestamps_no_transfer cfg0 ⟨[("/local/a.txt", 3)]⟩ [df0] df0
      "a.txt" "/local/a.txt" 3 (by decide) (by decide) (by decide)
      (by decide) (by decide) (by decide)).2.1⟩

theorem upload_file_no_load (fs : Fs) (p : String) (dfs : List DriveFile)
    (fid : String) :
    (upload_file fs p dfs fid).countP Call.isLoadConfig = 0 := by
  unfold upload_file
  cases hfind : dfs.find? (fun f => f.name == basename p) with
  | none => simp [hfind, Call.isLoadConfig]
  | some df =>
      by_cases hle : fs.mtime p ≤ df.modifiedTime <;>
        simp [hfind, hle, Call.isLoadConfig]

theorem download_file_one_load (cfg : Config) (fs : Fs) (nm : String)
    (df : DriveFile) :
    (download_file cfg fs nm df).countP Call.isLoadConfig = 1 := by
  unfold download_file
  cases hm : cfg.file_mappings.lookup nm with
  | none => simp [Call.isLoadConfig]
  | some p =>
      by_cases hp : p = ""
      · simp [hp, Call.isLoadConfig]
      · by_cases he : fs.isfile p
        · by_cases ht : df.modifiedTime ≤ fs.mtime p <;>
            simp [hp, he, ht, Call.isLoadConfig]
        · simp [hp, he, Call.isLoadConfig]

theorem uploadPhase_no_load (cfg : Config) (fs : Fs)
    (dfs : List DriveFile) :
    (uploadPhase cfg fs dfs).countP Call.isLoadConfig = 0 := by
  unfold uploadPhase
  generalize (cfg.file_mappings.map Prod.snd).filter fs.isfile = l
  induction l with
  | nil => simp
  | cons a l ih =>
      simp [List.flatMap_cons, List.countP_append, ih, upload_file_no_load]

theorem downloadPhase_loads (cfg : Config) (fs : Fs)
    (dfs : List DriveFile) :
    (downloadPhase cfg fs dfs).countP Call.isLoadConfig = dfs.length := by
  unfold downloadPhase
  induction dfs with
  | nil => simp
  | cons a l ih =>
      simp [List.flatMap_cons, List.countP_append, ih, download_file_one_load]
      omega

/-- C6 (amended): one sync cycle loads the configuration once in `sync`
itself plus once per Drive record inside `download_file`. -/
theorem config_loads_per_cycle (cfg : Config) (fs : Fs)
    (dfs : List DriveFile) :
    (sync cfg fs dfs).countP Call.isLoadConfig = 1 + dfs.length := by
  unfold sync
  simp [List.countP_cons, List.countP_append, Call.isLoadConfig,
    uploadPhase_no_load, downloadPhase_loads]
  omega

/-- C6 counterexample: with a single Drive record the cycle loads the
configuration twice, not exactly once as claimed. -/
theorem config_loaded_twice :
    (sync cfg0 fs0 [df0]).countP Call.isLoadConfig = 2
    ∧ ¬ (sync cfg0 fs0 [df0]).countP Call.isLoadConfig = 1 := by
  decide

/-- C7: a Drive record whose name is unmapped produces only a config load
and one warning — no transfer call, no failure — and execution continues
with the remaining records of the download pass. -/
theorem unmapped_record_skipped (cfg : Config) (fs : Fs) (df : DriveFile)
    (rest : List DriveFile) (fails : Call → Bool)
    (hm : cfg.file_mappings.lookup df.name = none)
    (hlc : fails Call.loadConfig = false) :
    download_file cfg fs df.name df = [Call.loadConfig, Call.warn df.name]
    ∧ (download_file cfg fs df.name df).countP Call.isTransfer = 0
    ∧ (download_file cfg fs df.name df).countP Call.isWarn = 1
    ∧ runCalls fails (downloadPhase cfg fs (df :: rest)) =
        prependCalls [Call.loadConfig, Call.warn df.name]
          (runCalls fails (downloadPhase cfg fs rest)) := by
  have h1 : download_file cfg fs df.name df =
      [Call.loadConfig, Call.warn df.name] := by
    simp [download_file, hm]
  refine ⟨h1, by simp [h1, Call.isTransfer], by simp [h1, Call.isWarn], ?_⟩
  have h2 : downloadPhase cfg fs (df :: rest) =
      Call.loadConfig :: Call.warn df.name :: downloadPhase cfg fs rest := by
    simp [downloadPhase, List.flatMap_cons, h1]
  rw [h2]
  cases hr : runCalls fails (downloadPhase cfg fs rest) with
  | ok t => simp [runCalls, fallible, hlc, hr, prependCalls]
  | error t => simp [runCalls, fallible, hlc, hr, prependCalls]

/-- Closed instance of C7: record `b.txt` is unmapped under `cfg0`. -/
theorem unmapped_record_skipped_witness :
    download_file cfg0 fs0 "b.txt" dfB =
      [Call.loadConfig, Call.warn "b.txt"] :=
  (unmapped_record_skipped cfg0 fs0 dfB [] (fun _ => false)
    (by decide) rfl).1

theorem foldl_recent_step_max (l : List DriveFile) (r : DriveFile) :
    ∃ m, l.foldl recent_step (some r) = some m
      ∧ (m = r ∨ m ∈ l)
      ∧ r.modifiedTime ≤ m.modifiedTime
      ∧ ∀ f ∈ l, f.modifiedTime ≤ m.modifiedTime := by
  induction l generalizing r with
  | nil => exact ⟨r, rfl, Or.inl rfl, le_refl _, by simp⟩
  | cons a l ih =>
      by_cases h : r.modifiedTime < a.modifiedTime
      · obtain ⟨m, hm, hmem, hle, hall⟩ := ih a
        refine ⟨m, ?_, ?_, le_of_lt (lt_of_lt_of_le h hle), ?_⟩
        · simpa [recent_step, h] using hm
        · rcases hmem with e | e
          · exact Or.inr (by simp [e])
          · exact Or.inr (List.mem_cons_of_mem a e)
        · intro f hf
          rcases List.mem_cons.mp hf with e | e
          · exact e ▸ hle
          · exact hall f e
      · obtain ⟨m, hm, hmem, hle, hall⟩ := ih r
        refine ⟨m, ?_, ?_, hle, ?_⟩
        · simpa [recent_step, h] using hm
        · rcases hmem with e | e
          · exact Or.inl e
          · exact Or.inr (List.mem_cons_of_mem a e)
        · intro f hf
          rcases List.mem_cons.mp hf with e | e
          · exact e ▸ le_trans (le_of_not_lt h) hle
          · exact hall f e

theorem find_recent_spec (a : DriveFile) (l : List DriveFile) :
    ∃ m, find_recent (a :: l) = some m
      ∧ m ∈ a :: l
      ∧ ∀ f ∈ a :: l, f.modifiedTime ≤ m.modifiedTime := by
  obtain ⟨m, hm, hmem, hle, hall⟩ := foldl_recent_step_max l a
  refine ⟨m, ?_, ?_, ?_⟩
  · simpa [find_recent, recent_step] using hm
  · rcases hmem with e | e
    · exact e ▸ List.mem_cons_self a l
    · exact List.mem_cons_of_mem a e
  · intro f hf
    rcases List.mem_cons.mp hf with e | e
    · exact e ▸ hle
    · exact hall f e

/-- C3: `create_backup` stops after the listing call exactly when some
remote backup record is within the interval of now; with an empty backup
listing it always builds and uploads an archive. -/
theorem create_backup_skip_iff (now : Int) (cfg : Config) (fs : Fs)
    (blist : List DriveFile) :
    ((∃ f ∈ blist, now - f.modifiedTime < backup_interval) ↔
        create_backup now cfg fs blist = [Call.listFiles BACKUP_FOLDER_ID])
    ∧ (blist = [] →
        producesArchive (create_backup now cfg fs blist) = true) := by
  constructor
  · cases blist with
    | nil => simp [create_backup, find_recent, backup_payload]
    | cons a l =>
        obtain ⟨m, hfr, hmem, hmax⟩ := find_recent_spec a l
        by_cases hskip : now - m.modifiedTime < backup_interval
        · refine iff_of_true ⟨m, hmem, hskip⟩ ?_
          unfold create_backup
          rw [hfr]
          simp [hskip]
        · refine iff_of_false ?_ ?_
          · rintro ⟨f, hf, hlt⟩
            exact hskip (lt_of_le_of_lt (by
              have := hmax f hf
              omega) hlt)
          · unfold create_backup
            rw [hfr]
            simp [hskip, backup_payload]
  · intro h
    subst h
    simp [create_backup, find_recent, producesArchive, backup_payload,
      Call.isZipCreate]

/-- Closed instance of C3: with an empty backup listing an archive is
produced. -/
theorem create_backup_skip_iff_witness :
    producesArchive (create_backup 0 cfg0 fs0 []) = true :=
  (create_backup_skip_iff 0 cfg0 fs0 []).2 rfl

/-- C5 counterexample: when the sync attempt raises (here the very first
`load_config` call fails), the iteration never reaches the sleeping state
— the process dies instead of transitioning to Idle. -/
theorem sync_raise_no_idle :
    (loop_body cfg0 fs0 [] [] (fun _ => true) 0 0 0 0).slept = false := by
  decide

/-- C5 (amended): an iteration reaches the Idle (sleeping) state exactly
when its single sync attempt succeeds and, when the backup timer has
expired, the backup attempt succeeds as well; a raising sync attempt
terminates the process without the Syncing-to-Idle transition. -/
theorem loop_reaches_idle_iff (cfg : Config) (fs : Fs)
    (dfs blist : List DriveFile) (fails : Call → Bool)
    (ulast now1 now2 now3 : Int) :
    (loop_body cfg fs dfs blist fails ulast now1 now2 now3).slept = true ↔
      ((∃ t, runCalls fails (sync cfg fs dfs) = Except.ok t)
       ∧ (now1 - ulast ≥ backup_interval →
           ∃ t, runCalls fails (create_backup now2 cfg fs blist) =
             Except.ok t)) := by
  unfold loop_body
  cases hs : runCalls fails (sync cfg fs dfs) with
  | error e => simp [hs]
  | ok t =>
      by_cases hdue : now1 - ulast ≥ backup_interval
      · cases hb : runCalls fails (create_backup now2 cfg fs blist) with
        | error e => simp [hs, hb, hdue]
        | ok u => simp [hs, hb, hdue]
      · simp [hs, hdue]

/-- Closed instance of the amended C5: with no failures and the timer not
due, the iteration reaches Idle. -/
theorem loop_reaches_idle_iff_witness :
    (loop_body cfg0 fs0 [] [] (fun _ => false) 0 0 0 0).slept = true :=
  (loop_reaches_idle_iff cfg0 fs0 [] [] (fun _ => false) 0 0 0 0).mpr
    ⟨⟨[Call.loadConfig, Call.listFiles "folder0"], rfl⟩,
     fun h => absurd h (by decide)⟩

/-- C10: `last_backup_time` starts one full interval in the past, so as
soon as the first sync attempt succeeds the first iteration invokes
`create_backup`; whether that call actually builds an archive is the same
for every configuration and filesystem, a function of the clock and the
remote backup listing alone. -/
theorem first_cycle_backup (cfg : Config) (fs : Fs)
    (dfs blist : List DriveFile) (fails : Call → Bool)
    (now0 now1 now2 now3 : Int) (t : List Call)
    (hmono : now0 ≤ now1)
    (hs : runCalls fails (sync cfg fs dfs) = Except.ok t) :
    (loop_body cfg fs dfs blist fails (init_last_backup now0) now1 now2
        now3).backup_invoked = true
    ∧ ∀ cfg2 fs2, producesArchive (create_backup now2 cfg2 fs2 blist) =
        producesArchive (create_backup now2 cfg fs blist) := by
  constructor
  · unfold loop_body
    rw [hs]
    have hdue : now1 - init_last_backup now0 ≥ backup_interval := by
      unfold init_last_backup
      omega
    rw [if_pos hdue]
    cases runCalls fails (create_backup now2 cfg fs blist) <;> rfl
  · intro cfg2 fs2
    unfold create_backup
    cases find_recent blist with
    | none => simp [producesArchive, backup_payload, Call.isZipCreate]
    | some r =>
        by_cases hskip : now2 - r.modifiedTime < backup_interval <;>
          simp [hskip, producesArchive, backup_payload, Call.isZipCreate]

/-- Closed instance of C10: the first iteration invokes `create_backup`. -/
theorem first_cycle_backup_witness :
    (loop_body cfg0 fs0 [] [] (fun _ => false) (init_last_backup 0) 0 0
        0).backup_invoked = true :=
  (first_cycle_backup cfg0 fs0 [] [] (fun _ => false) 0 0 0 0
    [Call.loadConfig, Call.listFiles "folder0"] (by decide) rfl).1

theorem runCalls_append_ok (fails : Call → Bool) (xs ys : List Call)
    (h : ∀ c ∈ xs, (fallible c && fails c) = false) :
    runCalls fails (xs ++ ys) = prependCalls xs (runCalls fails ys) := by
  induction xs with
  | nil => cases hr : runCalls fails ys <;> simp [prependCalls, hr]
  | cons a l ih =>
      have ha : (fallible a && fails a) = false := h a (List.mem_cons_self a l)
      have hl : ∀ c ∈ l, (fallible c && fails c) = false :=
        fun c hc => h c (List.mem_cons_of_mem a hc)
      rw [List.cons_append]
      show (if fallible a && fails a then Except.error [a]
        else match runCalls fails (l ++ ys) with
          | Except.ok t => Except.ok (a :: t)
          | Except.error t => Except.error (a :: t)) = _
      rw [if_neg (by simp [ha]), ih hl]
      cases hr : runCalls fails ys <;> simp [prependCalls, hr]

theorem find_recent_mem (blist : List DriveFile) (r : DriveFile)
    (h : find_recent blist = some r) : r ∈ blist := by
  cases blist with
  | nil => simp [find_recent] at h
  | cons a l =>
      obtain ⟨m, hfr, hmem, _⟩ := find_recent_spec a l
      rw [hfr] at h
      exact (Option.some.inj h) ▸ hmem

/-- C8: when a backup is produced (no recent-enough remote backup, fresh
archive name), the trace ends with the local-archive removal right after
the upload create call; if nothing fails the removal executes, and if the
upload create call raises, execution stops with an error trace that
contains no removal — the local archive stays in place. -/
theorem backup_cleanup (now : Int) (cfg : Config) (fs : Fs)
    (blist : List DriveFile) (fails : Call → Bool)
    (hno : ∀ f ∈ blist, backup_interval ≤ now - f.modifiedTime)
    (hfind : blist.find?
        (fun f => f.name == basename (local_backup_path now)) = none)
    (hpre : fails (Call.listFiles BACKUP_FOLDER_ID) = false ∧
            fails Call.loadConfig = false ∧
            fails (Call.zipCreate (local_backup_path now)) = false ∧
            ∀ p, fails (Call.zipWrite p) = false) :
    create_backup now cfg fs blist =
      (Call.listFiles BACKUP_FOLDER_ID :: Call.loadConfig ::
        Call.zipCreate (local_backup_path now) ::
        ((cfg.file_mappings.map Prod.snd).filter fs.isfile).map Call.zipWrite)
      ++ [Call.create (basename (local_backup_path now)) BACKUP_FOLDER_ID,
          Call.removeLocal (local_backup_path now)]
    ∧ (fails (Call.create (basename (local_backup_path now))
          BACKUP_FOLDER_ID) = false →
        fails (Call.removeLocal (local_backup_path now)) = false →
        runCalls fails (create_backup now cfg fs blist) =
          Except.ok (create_backup now cfg fs blist))
    ∧ (fails (Call.create (basename (local_backup_path now))
          BACKUP_FOLDER_ID) = true →
        ∃ e, runCalls fails (create_backup now cfg fs blist) =
            Except.error e
          ∧ Call.removeLocal (local_backup_path now) ∉ e) := by
  obtain ⟨hf1, hf2, hf3, hf4⟩ := hpre
  have hshape : create_backup now cfg fs blist =
      (Call.listFiles BACKUP_FOLDER_ID :: Call.loadConfig ::
        Call.zipCreate (local_backup_path now) ::
        ((cfg.file_mappings.map Prod.snd).filter fs.isfile).map
          Call.zipWrite)
      ++ [Call.create (basename (local_backup_path now)) BACKUP_FOLDER_ID,
          Call.removeLocal (local_backup_path now)] := by
    unfold create_backup
    cases hfr : find_recent blist with
    | none => simp [backup_payload, upload_file, hfind]
    | some r =>
        have hr : backup_interval ≤ now - r.modifiedTime :=
          hno r (find_recent_mem blist r hfr)
        simp [not_lt.mpr hr, backup_payload, upload_file, hfind]
  have hpreok : ∀ c ∈ (Call.listFiles BACKUP_FOLDER_ID :: Call.loadConfig ::
      Call.zipCreate (local_backup_path now) ::
      ((cfg.file_mappings.map Prod.snd).filter fs.isfile).map
        Call.zipWrite), (fallible c && fails c) = false := by
    intro c hc
    rcases List.mem_cons.mp hc with e | hc
    · simp [e, hf1]
    rcases List.mem_cons.mp hc with e | hc
    · simp [e, hf2]
    rcases List.mem_cons.mp hc with e | hc
    · simp [e, hf3]
    obtain ⟨p, _, e⟩ := List.mem_map.mp hc
    simp [← e, hf4]
  refine ⟨hshape, fun hc hrm => ?_, fun hc => ?_⟩
  · rw [hshape, runCalls_append_ok fails _ _ hpreok]
    simp [runCalls, fallible, hc, hrm, prependCalls]
  · rw [hshape, runCalls_append_ok fails _ _ hpreok]
    refine ⟨(Call.listFiles BACKUP_FOLDER_ID :: Call.loadConfig ::
        Call.zipCreate (local_backup_path now) ::
        ((cfg.file_mappings.map Prod.snd).filter fs.isfile).map
          Call.zipWrite)
      ++ [Call.create (basename (local_backup_path now)) BACKUP_FOLDER_ID],
      ?_, ?_⟩
    · simp [runCalls, fallible, hc, prependCalls]
    · intro hmem
      rcases List.mem_append.mp hmem with hmem | hmem
      · rcases List.mem_cons.mp hmem with e | hmem
        · exact Call.noConfusion e
        rcases List.mem_cons.mp hmem with e | hmem
        · exact Call.noConfusion e
        rcases List.mem_cons.mp hmem with e | hmem
        · exact Call.noConfusion e
        obtain ⟨p, _, e⟩ := List.mem_map.mp hmem
        exact Call.noConfusion e
      · rcases List.mem_cons.mp hmem with e | hmem
        · exact Call.noConfusion e
        · simp at hmem

/-- Closed instance of C8: with an empty backup listing and only the
upload create call failing, the error trace ends at the create call and
contains no archive removal. -/
theorem backup_cleanup_witness :
    ∃ e, runCalls
        (fun c => match c with | Call.create _ _ => true | _ => false)
        (create_backup 0 cfg0 fs0 []) = Except.error e
      ∧ Call.removeLocal (local_backup_path 0) ∉ e :=
  (backup_cleanup 0 cfg0 fs0 []
    (fun c => match c with | Call.create _ _ => true | _ => false)
    (by simp) (by decide) ⟨rfl, rfl, rfl, fun p => rfl⟩).2.2 rfl

/-- C9 counterexample: under `cfg1` the entry `a` maps to `/x/b.txt`,
whose basename `b.txt` is itself another mapping key; the upload pass
publishes the file as `b.txt`, and the download pass then issues a real
download for that record (to `/y/c.txt`) with no warning — it is neither
warning-skipped nor left un-downloaded, contradicting the claim. -/
theorem alias_download_counterexample :
    basename "/x/b.txt" ≠ "a"
    ∧ upload_file fs0 "/x/b.txt" [] "folder0" =
        [Call.create "b.txt" "folder0"]
    ∧ download_file cfg1 fs0 "b.txt" df1 =
        [Call.loadConfig, Call.download "id1" "/y/c.txt"]
    ∧ (download_file cfg1 fs0 "b.txt" df1).countP Call.isWarn = 0
    ∧ (download_file cfg1 fs0 "b.txt" df1).countP Call.isDownload = 1 := by
  decide

/-- C9 (amended): for a mapping entry whose logical name differs from the
basename of its path, the upload pass names the remote file after the
basename while the download pass looks names up among mapping keys;
provided that basename is not itself usably mapped, the uploaded record is
warning-skipped by every later download pass and never downloaded back. -/
theorem alias_upload_never_downloaded (cfg : Config) (fs fs2 : Fs)
    (key p : String) (df : DriveFile) (dfs : List DriveFile) (fid : String)
    (hmem : (key, p) ∈ cfg.file_mappings) (hne : key ≠ basename p)
    (hfind : dfs.find? (fun f => f.name == basename p) = none)
    (hdf : df.name = basename p)
    (hnone : cfg.file_mappings.lookup (basename p) = none ∨
        cfg.file_mappings.lookup (basename p) = some "") :
    upload_file fs p dfs fid = [Call.create (basename p) fid]
    ∧ download_file cfg fs2 df.name df =
        [Call.loadConfig, Call.warn df.name]
    ∧ (download_file cfg fs2 df.name df).countP Call.isDownload = 0 := by
  have hd : download_file cfg fs2 df.name df =
      [Call.loadConfig, Call.warn df.name] := by
    rcases hnone with h | h
    · simp [download_file, hdf, h]
    · simp [download_file, hdf, h]
  refine ⟨by simp [upload_file, hfind], hd, by simp [hd, Call.isDownload]⟩

/-- Closed instance of the amended C9: with the aliasing second entry
removed, the record uploaded as `b.txt` is warning-skipped. -/
theorem alias_upload_never_downloaded_witness :
    upload_file fs0 "/x/b.txt" [] "folder0" =
      [Call.create "b.txt" "folder0"]
    ∧ download_file ⟨"folder0", [("a", "/x/b.txt")]⟩ fs0 "b.txt" df1 =
        [Call.loadConfig, Call.warn "b.txt"] :=
  ⟨(alias_upload_never_downloaded ⟨"folder0", [("a", "/x/b.txt")]⟩ fs0 fs0
      "a" "/x/b.txt" df1 [] "folder0" (by decide) (by decide) rfl rfl
      (Or.inl (by decide))).1,
   (alias_upload_never_downloaded ⟨"folder0", [("a", "/x/b.txt")]⟩ fs0 fs0
      "a" "/x/b.txt" df1 [] "folder0" (by decide) (by decide) rfl rfl
      (Or.inl (by decide))).2.1⟩
